import Mathlib

/-
  Shallow embedding of the core of the Job-Search-Automation repository:
  storage/database.py (fingerprint store), scrapers/base_scraper.py
  (Job model, relevance scorer, safe search wrapper), scheduler.py
  (run orchestration) and the two notifiers (dispatch control flow).

  Python strings are modelled as Lean String / List Char, with an ASCII
  case model (Char.toLower, Char.isWhitespace).  The sha256 hex digest
  used by _canonical_id is modelled as an injective fingerprint: the
  identity of a listing is represented by the canonical pre-hash string
  itself.  SQLite tables are modelled as lists of rows and each SQL
  statement as the corresponding pure state transformer; python
  exceptions that the code catches are modelled by explicit failure
  flags, and wall-clock timestamps by oracle parameters.
-/

namespace JobSearch

/-- python str.strip on a character list: drop leading and trailing
whitespace, as used by storage/database.py before hashing. -/
def pyStrip (l : List Char) : List Char :=
  ((l.dropWhile Char.isWhitespace).reverse.dropWhile Char.isWhitespace).reverse

/-- python str.lower, ASCII model: lowercase every character. -/
def pyLower (l : List Char) : List Char := l.map Char.toLower

/-- normalisation applied by _canonical_id to each of the three identity
fields: field.strip().lower(). -/
def normField (s : String) : List Char := pyLower (pyStrip s.data)

/-- the two-colon separator placed between the fields of the raw
fingerprint string built by _canonical_id. -/
def idSep : List Char := [':', ':']

/-- storage/database.py _canonical_id: the raw string is
url.strip().lower(), title.strip().lower() and company.strip().lower()
joined by the separator; its sha256 hex digest is modelled as the raw
string itself (an injective fingerprint). -/
def canonical_id (url title company : String) : List Char :=
  normField url ++ idSep ++ normField title ++ idSep ++ normField company

/-- scrapers/base_scraper.py Job dataclass (also the dictionary shape
produced by Job.to_dict, whose fields are identical). -/
structure Job where
  title       : String
  company     : String
  location    : String := ""
  url         : String := ""
  date_posted : String := ""
  source      : String := ""
  description : String := ""
  score       : ℚ := 0
deriving DecidableEq, Repr

/-- one row of the sqlite jobs table of storage/database.py. -/
structure Row where
  id          : List Char
  title       : String
  company     : String
  location    : String
  url         : String
  source      : String
  description : String
  date_posted : String
  score       : ℚ
  discovered  : String
  notified    : Bool
deriving DecidableEq, Repr

/-- fingerprint computed by save_job from the job dictionary. -/
def jobId (j : Job) : List Char := canonical_id j.url j.title j.company

/-- the row written by save_job for a fresh listing: all dictionary
fields are copied, discovered is the current timestamp and notified
starts at 0 (false). -/
def mkRow (j : Job) (now : String) : Row :=
  { id := jobId j, title := j.title, company := j.company,
    location := j.location, url := j.url, source := j.source,
    description := j.description, date_posted := j.date_posted,
    score := j.score, discovered := now, notified := false }

/-- point lookup by primary key used by is_new and by INSERT OR IGNORE. -/
def hasId (jobs : List Row) (h : List Char) : Bool :=
  jobs.any fun r => decide (r.id = h)

/-- storage/database.py is_new: true iff no row with the derived
fingerprint exists. -/
def is_new (jobs : List Row) (url title company : String) : Bool :=
  ! hasId jobs (canonical_id url title company)

/-- sqlite INSERT OR IGNORE on the jobs table: insert the row only when
its primary key is absent. -/
def insertOrIgnore (jobs : List Row) (r : Row) : List Row :=
  if hasId jobs r.id then jobs else jobs ++ [r]

/-- storage/database.py save_job.  The fails flag models an exception
escaping the transaction (the except branch: rollback, log, return
False).  Without a failure the INSERT OR IGNORE runs and the function
returns True, whether or not a row was actually written. -/
def save_job (jobs : List Row) (j : Job) (fails : Bool) (now : String) :
    List Row × Bool :=
  if fails then (jobs, false) else (insertOrIgnore jobs (mkRow j now), true)

/-- a sequence of save_job calls: each element carries the job
dictionary, the failure flag of that call and that call's timestamp. -/
def saveSeq (jobs : List Row) : List (Job × Bool × String) → List Row
  | [] => jobs
  | (j, f, n) :: rest => saveSeq (save_job jobs j f n).1 rest

/-- fingerprint recomputed by mark_notified from a row dictionary. -/
def rowKey (r : Row) : List Char := canonical_id r.url r.title r.company

/-- storage/database.py mark_notified: UPDATE jobs SET notified = 1
WHERE id = ?, executed for the fingerprint of every given listing. -/
def mark_notified (table : List Row) (toMark : List Row) : List Row :=
  table.map fun r =>
    if r.id ∈ toMark.map rowKey then { r with notified := true } else r

/-- storage/database.py get_unnotified_jobs: all rows with notified = 0
(the ORDER BY discovered DESC presentation order is not modelled; the
claims below are about membership). -/
def get_unnotified (table : List Row) : List Row :=
  table.filter fun r => ! r.notified

/-- storage/database.py total_jobs. -/
def total_jobs (table : List Row) : Nat := table.length

/-- python substring containment helper: does the first list occur at
the head of the second one. -/
def leadsWith : List Char → List Char → Bool
  | [], _ => true
  | _ :: _, [] => false
  | a :: as, b :: bs => a == b && leadsWith as bs

/-- python substring test (the in operator on str): the needle occurs
contiguously somewhere in the haystack. -/
def isSubstr (needle : List Char) : List Char → Bool
  | [] => leadsWith needle []
  | c :: rest => leadsWith needle (c :: rest) || isSubstr needle rest

/-- accumulator for pySplit: current partial token held reversed. -/
def pySplitAux : List Char → List Char → List (List Char)
  | [], cur => if cur.isEmpty then [] else [cur.reverse]
  | c :: cs, cur =>
    if c.isWhitespace then
      if cur.isEmpty then pySplitAux cs [] else cur.reverse :: pySplitAux cs []
    else pySplitAux cs (c :: cur)

/-- python str.split with no argument: split on whitespace runs and
drop empty tokens. -/
def pySplit (l : List Char) : List (List Char) := pySplitAux l []

/-- scrapers/base_scraper.py _score, translated statement by statement:
start at 0, add 40 when the lowercased keyword occurs in the lowercased
title-plus-company haystack, add 5 per whitespace token of the keyword
occurring there, then for each configured tag add 10 on a title match
else 3 on a description match, and finally cap at 100. -/
def score (j : Job) (keyword : String) (tags : List String) : ℚ :=
  let haystackTitle := pyLower (j.title ++ " " ++ j.company).data
  let haystackBody  := pyLower j.description.data
  let kwLower := pyLower keyword.data
  let s1 : ℚ := if isSubstr kwLower haystackTitle then 0 + 40 else 0
  let s2 := (pySplit kwLower).foldl
    (fun acc w => if isSubstr w haystackTitle then acc + 5 else acc) s1
  let s3 := tags.foldl
    (fun acc tag =>
      if isSubstr (pyLower tag.data) haystackTitle then acc + 10
      else if isSubstr (pyLower tag.data) haystackBody then acc + 3
      else acc) s2
  min s3 100

/-- the additive scoring formula as the specification words it: an
indicator worth 40 when the lowercased keyword occurs in the lowercased
title-and-company haystack, plus 5 per whitespace-separated keyword
token occurring there, plus a per-tag contribution of 10 on a
title-haystack match, else 3 on a description match, else 0. -/
def scoreRaw (j : Job) (keyword : String) (tags : List String) : ℚ :=
  (if isSubstr (pyLower keyword.data) (pyLower (j.title ++ " " ++ j.company).data)
   then (40 : ℚ) else 0)
  + 5 * (((pySplit (pyLower keyword.data)).filter fun w =>
      isSubstr w (pyLower (j.title ++ " " ++ j.company).data)).length : ℚ)
  + (tags.map fun tag =>
      if isSubstr (pyLower tag.data) (pyLower (j.title ++ " " ++ j.company).data)
      then (10 : ℚ)
      else if isSubstr (pyLower tag.data) (pyLower j.description.data)
      then 3 else 0).sum

/-- the specification's scoring contract: the additive formula clamped
to the closed interval from 0 to 100.  Stated from the specification,
to be compared with the source-derived score above. -/
def scoreSpec (j : Job) (keyword : String) (tags : List String) : ℚ :=
  max 0 (min (scoreRaw j keyword tags) 100)

/-- scrapers/base_scraper.py safe_search: any exception from search
becomes an empty result; otherwise every returned candidate is tagged
with the scraper's source name and scored against the keyword. -/
def safe_search (name : String) (tags : List String)
    (search : String → String → Except String (List Job))
    (keyword location : String) : List Job :=
  match search keyword location with
  | .error _ => []
  | .ok jobs => jobs.map fun j =>
      let j1 := { j with source := name }
      { j1 with score := score j1 keyword tags }

/-- python str.strip at the String level, used by _effective_keywords
and the keyword table. -/
def pyStripStr (s : String) : String := ⟨pyStrip s.data⟩

/-- scheduler.py _effective_keywords: the python set comprehension over
yaml keywords plus stored keywords, keeping k.strip() for every k whose
stripped form is non-empty; the set is modelled as a duplicate-free list
(the spec guarantees no ordering). -/
def effective_keywords (yamlKw dbKw : List String) : List String :=
  (((yamlKw ++ dbKw).filter fun k => decide (pyStripStr k ≠ "")).map pyStripStr).dedup

/-- one row of the sqlite run_log table. -/
structure RunRow where
  id          : Nat
  started_at  : String
  finished_at : Option String
  new_jobs    : Nat
  status      : String
deriving DecidableEq, Repr

/-- the three persisted tables owned by the fingerprint store. -/
structure DbState where
  jobs     : List Row
  keywords : List (String × String)
  runLog   : List RunRow
deriving DecidableEq, Repr

/-- storage/database.py list_keywords (keyword column, insertion
order). -/
def list_keywords (db : DbState) : List String := db.keywords.map Prod.fst

/-- sqlite AUTOINCREMENT row id for the run_log insert of start_run. -/
def next_run_id (log : List RunRow) : Nat :=
  (log.map RunRow.id).foldr max 0 + 1

/-- storage/database.py finish_run: update the matching run row with
the finish timestamp, the new-job count and the terminal status. -/
def finish_run (log : List RunRow) (runId : Nat) (newJobs : Nat)
    (status : String) (now : String) : List RunRow :=
  log.map fun r =>
    if r.id = runId then
      { r with finished_at := some now, new_jobs := newJobs, status := status }
    else r

/-- notifier/email_notifier.py EmailNotifier.send, observable control
flow.  Returns the reported success together with a flag recording
whether an external SMTP delivery was attempted.  credsOk abstracts the
presence of sender and password, smtpOk the outcome of the SMTP try
block. -/
def email_send (jobs : List Row) (dryRun sendEmpty credsOk smtpOk : Bool) :
    Bool × Bool :=
  if jobs.isEmpty && !sendEmpty then (true, false)
  else if dryRun then (true, false)
  else if !credsOk then (false, false)
  else (smtpOk, true)

/-- notifier/telegram_notifier.py TelegramNotifier.send, observable
control flow: the function takes no dry-run flag at all; when the
channel is enabled, credentials are present and the job list is
non-empty it posts messages externally and returns True. -/
def telegram_send (jobs : List Row) (enabled credsOk : Bool) :
    Bool × Bool :=
  if !enabled then (true, false)
  else if !credsOk then (false, false)
  else if jobs.isEmpty then (true, false)
  else (true, true)

/-- configuration and environment oracles of one orchestrator run:
search configuration, registered scrapers, the dry-run flag, notifier
environment, the per-candidate save-failure oracle failAt, and the
timestamp oracles. -/
structure RunParams where
  yamlKeywords    : List String
  locations       : List String
  tags            : List String
  scrapers        : List (String × (String → String → Except String (List Job)))
  dryRun          : Bool
  sendEmpty       : Bool
  emailCredsOk    : Bool
  smtpOk          : Bool
  telegramEnabled : Bool
  telegramCredsOk : Bool
  failAt          : Nat → Bool
  nowAt           : Nat → String
  startNow        : String
  finishNow       : String

/-- the scrape loop of scheduler.py run_once, lines 104-116: for every
candidate in order, check is_new and, when new, call save_job and
increment the counter; the boolean returned by save_job is discarded
exactly as in the source. -/
def processCandidates (p : RunParams) :
    List Row → List Job → Nat → Nat → List Row × Nat
  | jobs, [], _, count => (jobs, count)
  | jobs, j :: rest, i, count =>
    if is_new jobs j.url j.title j.company then
      processCandidates p (save_job jobs j (p.failAt i) (p.nowAt i)).1 rest
        (i + 1) (count + 1)
    else
      processCandidates p jobs rest (i + 1) count

/-- the flattened scraper-by-keyword-by-location candidate stream of
run_once, with each scraper invoked through safe_search. -/
def candidates (p : RunParams) (db : DbState) : List Job :=
  p.scrapers.flatMap fun s =>
    (effective_keywords p.yamlKeywords (list_keywords db)).flatMap fun kw =>
      p.locations.flatMap fun loc => safe_search s.1 p.tags s.2 kw loc

/-- the notification phase of run_once, lines 121-128: when unnotified
listings exist, send the email digest, send telegram (whose result is
discarded), and mark the listings notified only when the email reported
success and the run is not a dry run; otherwise only the possibly-empty
digest email is attempted.  Returns email success, email delivery flag,
telegram delivery flag, and the resulting jobs table. -/
def notifyPhase (p : RunParams) (jobs1 : List Row) :
    Bool × Bool × Bool × List Row :=
  if (get_unnotified jobs1).isEmpty then
    ((email_send [] p.dryRun p.sendEmpty p.emailCredsOk p.smtpOk).1,
     (email_send [] p.dryRun p.sendEmpty p.emailCredsOk p.smtpOk).2,
     false, jobs1)
  else
    ((email_send (get_unnotified jobs1) p.dryRun p.sendEmpty p.emailCredsOk p.smtpOk).1,
     (email_send (get_unnotified jobs1) p.dryRun p.sendEmpty p.emailCredsOk p.smtpOk).2,
     (telegram_send (get_unnotified jobs1) p.telegramEnabled p.telegramCredsOk).2,
     if (email_send (get_unnotified jobs1) p.dryRun p.sendEmpty p.emailCredsOk p.smtpOk).1
        && !p.dryRun
     then mark_notified jobs1 (get_unnotified jobs1)
     else jobs1)

/-- everything observable about one run of scheduler.py run_once. -/
structure RunResult where
  db                : DbState
  ret               : Nat
  emailOk           : Bool
  emailDelivered    : Bool
  telegramDelivered : Bool
deriving Repr

/-- scheduler.py run_once: open a run record, scrape and save every
candidate, notify, close the run record with the new count and status
ok, and return the new count. -/
def runOnce (p : RunParams) (db0 : DbState) : RunResult :=
  { db := { jobs := (notifyPhase p (processCandidates p db0.jobs (candidates p db0) 0 0).1).2.2.2,
            keywords := db0.keywords,
            runLog := finish_run
              (db0.runLog ++ [{ id := next_run_id db0.runLog,
                                started_at := p.startNow, finished_at := none,
                                new_jobs := 0, status := "running" }])
              (next_run_id db0.runLog)
              (processCandidates p db0.jobs (candidates p db0) 0 0).2
              "ok" p.finishNow },
    ret := (processCandidates p db0.jobs (candidates p db0) 0 0).2,
    emailOk := (notifyPhase p (processCandidates p db0.jobs (candidates p db0) 0 0).1).1,
    emailDelivered := (notifyPhase p (processCandidates p db0.jobs (candidates p db0) 0 0).1).2.1,
    telegramDelivered := (notifyPhase p (processCandidates p db0.jobs (candidates p db0) 0 0).1).2.2.1 }

/-- concrete sample listing used by the concrete evaluations below. -/
def cexJob : Job :=
  { title := "Backend Engineer", company := "Acme", url := "https://x/1" }

/-- case and whitespace variant of cexJob with the same fingerprint. -/
def cexJob2 : Job :=
  { title := "  BACKEND ENGINEER ", company := "Acme", url := "https://x/1",
    location := "Remote", score := 55 }

/-- an empty fingerprint store. -/
def emptyDb : DbState := { jobs := [], keywords := [], runLog := [] }

/-- a one-row jobs table used by concrete instantiations. -/
def wTable : List Row := [mkRow cexJob "t0"]

/-- jobs agreeing on the text fields but different everywhere else. -/
def wJobA : Job :=
  { title := "Backend Engineer", company := "Acme", url := "https://x/1",
    location := "NYC", date_posted := "2024", source := "indeed",
    description := "python job", score := 10 }

/-- second sample job for the noninterference witness. -/
def wJobB : Job :=
  { title := "Backend Engineer", company := "Acme", url := "https://y/2",
    location := "Remote", date_posted := "2025", source := "linkedin",
    description := "python job", score := 99 }

/-- a concrete run whose email dispatch fails: one scraper returning
one candidate, no dry run, missing email credentials. -/
def c5Params : RunParams :=
  { yamlKeywords := ["Engineer"], locations := ["Remote"], tags := [],
    scrapers := [("test", fun _ _ => Except.ok [cexJob])],
    dryRun := false, sendEmpty := false, emailCredsOk := false, smtpOk := false,
    telegramEnabled := false, telegramCredsOk := false,
    failAt := fun _ => false, nowAt := fun _ => "t0",
    startNow := "s", finishNow := "f" }

/-- a concrete dry run with the telegram channel enabled and
credentialed, discovering one candidate. -/
def c6Params : RunParams :=
  { yamlKeywords := ["Engineer"], locations := ["Remote"], tags := [],
    scrapers := [("test", fun _ _ => Except.ok [cexJob])],
    dryRun := true, sendEmpty := false, emailCredsOk := true, smtpOk := true,
    telegramEnabled := true, telegramCredsOk := true,
    failAt := fun _ => false, nowAt := fun _ => "t0",
    startNow := "s", finishNow := "f" }

/-- a concrete run in which the single save_job call raises. -/
def c9Params : RunParams :=
  { yamlKeywords := ["Engineer"], locations := ["Remote"], tags := [],
    scrapers := [("test", fun _ _ => Except.ok [cexJob])],
    dryRun := false, sendEmpty := false, emailCredsOk := false, smtpOk := false,
    telegramEnabled := false, telegramCredsOk := false,
    failAt := fun _ => true, nowAt := fun _ => "t0",
    startNow := "s", finishNow := "f" }

/-- the same run with no save failures. -/
def c9okParams : RunParams := { c9Params with failAt := fun _ => false }

/-
  Theorems.
-/

/-- helper: a run of save_job calls that all fail leaves the table
unchanged. -/
theorem saveSeq_all_failed (jobs : List Row) (pre : List (Job × Bool × String))
    (hpre : ∀ x ∈ pre, x.2.1 = true) : saveSeq jobs pre = jobs := by
  induction pre with
  | nil => rfl
  | cons x rest ih =>
    obtain ⟨j, f, n⟩ := x
    have hf : f = true := hpre (j, f, n) (by simp)
    subst hf
    show saveSeq (save_job jobs j true n).1 rest = jobs
    simpa [save_job] using ih fun y hy => hpre y (by simp [hy])

/-- helper: once a row with a given fingerprint is present, further
save_job calls for that fingerprint leave the table unchanged. -/
theorem saveSeq_id_present (jobs : List Row) (h : List Char)
    (hmem : hasId jobs h = true) (rest : List (Job × Bool × String))
    (hall : ∀ x ∈ rest, jobId x.1 = h) : saveSeq jobs rest = jobs := by
  induction rest with
  | nil => rfl
  | cons x rest ih =>
    obtain ⟨j, f, n⟩ := x
    have hid : jobId j = h := hall (j, f, n) (by simp)
    have hrec : saveSeq jobs rest = jobs := ih fun y hy => hall y (by simp [hy])
    cases f with
    | true =>
      show saveSeq (save_job jobs j true n).1 rest = jobs
      simpa [save_job] using hrec
    | false =>
      show saveSeq (save_job jobs j false n).1 rest = jobs
      have hpresent : hasId jobs (mkRow j n).id = true := by
        show hasId jobs (jobId j) = true
        rw [hid]; exact hmem
      simpa [save_job, insertOrIgnore, hpresent] using hrec

/-- helper: saveSeq over an appended sequence is sequential
composition. -/
theorem saveSeq_append (jobs : List Row) (a b : List (Job × Bool × String)) :
    saveSeq jobs (a ++ b) = saveSeq (saveSeq jobs a) b := by
  induction a generalizing jobs with
  | nil => rfl
  | cons x rest ih =>
    obtain ⟨j, f, n⟩ := x
    show saveSeq (save_job jobs j f n).1 (rest ++ b)
      = saveSeq (saveSeq (save_job jobs j f n).1 rest) b
    exact ih _

/-- C1: at-most-once persistence, first write wins.  For any sequence
of save_job calls whose listings all derive the same fingerprint,
starting from a store without that fingerprint, where the calls before
the first successful one fail, the final table is exactly the original
table extended by the single row of the first successful save (its
score, discovery timestamp and notified flag are those of that save),
and exactly that one row carries the fingerprint; later saves never
overwrite it. -/
theorem save_first_write_wins
    (db0 : List Row) (h : List Char) (pre post : List (Job × Bool × String))
    (j : Job) (n : String)
    (hids : ∀ x ∈ pre ++ (j, false, n) :: post, jobId x.1 = h)
    (hdb0 : ∀ r ∈ db0, r.id ≠ h)
    (hpre : ∀ x ∈ pre, x.2.1 = true) :
    saveSeq db0 (pre ++ (j, false, n) :: post) = db0 ++ [mkRow j n] ∧
    (saveSeq db0 (pre ++ (j, false, n) :: post)).filter
      (fun r => decide (r.id = h)) = [mkRow j n] := by
  have hidj : jobId j = h := hids (j, false, n) (by simp)
  have hnot : hasId db0 h = false := by
    cases hh : hasId db0 h with
    | false => rfl
    | true =>
      rw [hasId, List.any_eq_true] at hh
      obtain ⟨r, hr, hr2⟩ := hh
      exact absurd (of_decide_eq_true hr2) (hdb0 r hr)
  have habsent : hasId db0 (mkRow j n).id = false := by
    show hasId db0 (jobId j) = false
    rw [hidj]; exact hnot
  have step1 : saveSeq db0 (pre ++ (j, false, n) :: post)
      = saveSeq (db0 ++ [mkRow j n]) post := by
    rw [saveSeq_append, saveSeq_all_failed db0 pre hpre]
    show saveSeq (save_job db0 j false n).1 post = _
    rw [save_job]
    simp [insertOrIgnore, habsent]
  have hrowid : (mkRow j n).id = h := by
    show jobId j = h
    exact hidj
  have hpresent : hasId (db0 ++ [mkRow j n]) h = true := by
    rw [hasId, List.any_eq_true]
    exact ⟨mkRow j n, by simp, by simp [hrowid]⟩
  have step2 : saveSeq (db0 ++ [mkRow j n]) post = db0 ++ [mkRow j n] :=
    saveSeq_id_present _ h hpresent post
      fun x hx => hids x (by simp [hx])
  have hfinal : saveSeq db0 (pre ++ (j, false, n) :: post) = db0 ++ [mkRow j n] := by
    rw [step1, step2]
  refine ⟨hfinal, ?_⟩
  rw [hfinal, List.filter_append]
  have h1 : db0.filter (fun r => decide (r.id = h)) = [] := by
    rw [List.filter_eq_nil_iff]
    intro r hr
    simp [hdb0 r hr]
  have h2 : [mkRow j n].filter (fun r => decide (r.id = h)) = [mkRow j n] := by
    simp [List.filter, hrowid]
  rw [h1, h2, List.nil_append]

/-- witness for save_first_write_wins at a concrete sequence: a failed
save, then a successful save of a case-and-whitespace variant, then a
duplicate save; the store ends with exactly the row of the first
successful save. -/
theorem save_first_write_wins_check :
    saveSeq [] ([(cexJob, true, "t0")] ++ (cexJob2, false, "t1") :: [(cexJob, false, "t2")])
      = [] ++ [mkRow cexJob2 "t1"] ∧
    (saveSeq [] ([(cexJob, true, "t0")] ++ (cexJob2, false, "t1") :: [(cexJob, false, "t2")])).filter
      (fun r => decide (r.id = jobId cexJob)) = [mkRow cexJob2 "t1"] :=
  save_first_write_wins [] (jobId cexJob) [(cexJob, true, "t0")]
    [(cexJob, false, "t2")] cexJob2 "t1" (by decide) (by decide) (by decide)

/-- C2 (code bug): save_job's return value does not distinguish insert
from duplicate.  Saving the same listing twice: the first call inserts
the row, the second call writes nothing, yet both calls return true,
contradicting the claim (and save_job's own docstring) that a duplicate
returns false. -/
theorem save_job_duplicate_returns_true :
    (save_job [] cexJob false "t0").2 = true ∧
    (save_job (save_job [] cexJob false "t0").1 cexJob false "t1").2 = true ∧
    (save_job (save_job [] cexJob false "t0").1 cexJob false "t1").1
      = (save_job [] cexJob false "t0").1 ∧
    total_jobs (save_job [] cexJob false "t0").1 = 1 := by decide

/-- C3: the fingerprint is invariant when every field is replaced by a
variant with the same stripped lowercased form (the canonical
representative of equality up to case and surrounding whitespace), and
changing any single field beyond case and whitespace changes the
fingerprint. -/
theorem canonical_id_case_ws :
    (∀ u t c u' t' c', normField u = normField u' → normField t = normField t' →
       normField c = normField c' → canonical_id u t c = canonical_id u' t' c') ∧
    (∀ u u' t c, normField u ≠ normField u' →
       canonical_id u t c ≠ canonical_id u' t c) ∧
    (∀ t t' u c, normField t ≠ normField t' →
       canonical_id u t c ≠ canonical_id u t' c) ∧
    (∀ c c' u t, normField c ≠ normField c' →
       canonical_id u t c ≠ canonical_id u t c') := by
  refine ⟨?_, ?_, ?_, ?_⟩
  · intro u t c u' t' c' hu ht hc
    unfold canonical_id
    rw [hu, ht, hc]
  · intro u u' t c h heq
    unfold canonical_id at heq
    exact h (List.append_cancel_right (List.append_cancel_right
      (List.append_cancel_right (List.append_cancel_right heq))))
  · intro t t' u c h heq
    unfold canonical_id at heq
    have h1 := List.append_cancel_right (List.append_cancel_right heq)
    exact h (List.append_cancel_left h1)
  · intro c c' u t h heq
    unfold canonical_id at heq
    exact h (List.append_cancel_left heq)

/-- witness for canonical_id_case_ws: a concrete case-and-whitespace
variant of the title keeps the fingerprint, while a genuinely different
url changes it. -/
theorem canonical_id_case_ws_check :
    canonical_id "https://x/1" "  BACKEND ENGINEER " "Acme"
      = canonical_id "https://x/1" "Backend Engineer" "Acme" ∧
    canonical_id "https://x/1" "Backend Engineer" "Acme"
      ≠ canonical_id "https://x/2" "Backend Engineer" "Acme" :=
  ⟨canonical_id_case_ws.1 "https://x/1" "  BACKEND ENGINEER " "Acme"
      "https://x/1" "Backend Engineer" "Acme" (by decide) (by decide) (by decide),
   canonical_id_case_ws.2.1 "https://x/1" "https://x/2" "Backend Engineer" "Acme"
      (by decide)⟩

/-- C4: notification monotonicity.  mark_notified twice equals
mark_notified once; row by row, mark_notified preserves the
fingerprint, never turns the notified flag from true to false, only
sets it for the given identities, and leaves untouched any row whose
identity was not given or that was already notified; save_job keeps
every existing row verbatim, so no store operation unsets the flag. -/
theorem notified_monotone :
    (∀ table toMark,
        mark_notified (mark_notified table toMark) toMark
          = mark_notified table toMark) ∧
    (∀ table toMark,
        List.Forall₂ (fun r r' =>
            r'.id = r.id ∧
            (r.notified = true → r'.notified = true) ∧
            (r'.notified = true → r.notified = true ∨ r.id ∈ toMark.map rowKey) ∧
            (r.id ∉ toMark.map rowKey → r' = r) ∧
            (r.notified = true → r' = r))
          table (mark_notified table toMark)) ∧
    (∀ table j f n, ∀ r ∈ table, r ∈ (save_job table j f n).1) := by
  refine ⟨?_, ?_, ?_⟩
  · intro table toMark
    unfold mark_notified
    rw [List.map_map]
    apply List.map_congr_left
    intro r _
    by_cases hm : r.id ∈ toMark.map rowKey
    · simp [Function.comp, hm]
    · simp [Function.comp, hm]
  · intro table toMark
    unfold mark_notified
    induction table with
    | nil => exact List.Forall₂.nil
    | cons r rest ih =>
      refine List.Forall₂.cons ?_ ih
      by_cases hm : r.id ∈ toMark.map rowKey
      · exact ⟨by simp [hm], by simp [hm], fun _ => Or.inr hm,
          fun hc => absurd hm hc,
          by intro hnot; cases r; simp_all⟩
      · exact ⟨by simp [hm], by simp [hm], by simp [hm],
          fun _ => by simp [hm], fun _ => by simp [hm]⟩
  · intro table j f n r hr
    by_cases hf : f
    · simp [save_job, hf, hr]
    · simp only [save_job, hf]
      by_cases hmem : hasId table (mkRow j n).id
      · simp [insertOrIgnore, hmem, hr]
      · simp only [Bool.false_eq_true, if_false, insertOrIgnore]
        simp [hmem, List.mem_append, hr]

/-- witness for notified_monotone at a concrete table: marking the
single stored listing twice equals marking it once, and a later save
keeps the stored row. -/
theorem notified_monotone_check :
    mark_notified (mark_notified wTable wTable) wTable
      = mark_notified wTable wTable ∧
    mkRow cexJob "t0" ∈ (save_job wTable cexJob2 false "t1").1 :=
  ⟨notified_monotone.1 wTable wTable,
   notified_monotone.2.2 wTable cexJob2 false "t1" (mkRow cexJob "t0") (by decide)⟩

/-- helper: the token fold of _score adds 5 per token satisfying the
match predicate. -/
theorem foldl_add_five (pr : List Char → Bool) (ws : List (List Char)) :
    ∀ s : ℚ,
      ws.foldl (fun acc w => if pr w then acc + 5 else acc) s
        = s + 5 * ((ws.filter pr).length : ℚ) := by
  induction ws with
  | nil => intro s; simp
  | cons w ws ih =>
    intro s
    cases h : pr w
    · simp [List.foldl_cons, List.filter_cons, h, ih]
    · simp [List.foldl_cons, List.filter_cons, h, ih (s + 5)]
      ring

/-- helper: the tag fold of _score adds the per-tag contributions. -/
theorem foldl_tag_sum (c1 c2 : String → Bool) (tags : List String) :
    ∀ s : ℚ,
      tags.foldl
        (fun acc tag => if c1 tag then acc + 10
          else if c2 tag then acc + 3 else acc) s
        = s + (tags.map fun tag =>
            if c1 tag then (10 : ℚ) else if c2 tag then 3 else 0).sum := by
  induction tags with
  | nil => intro s; simp
  | cons t ts ih =>
    intro s
    cases h1 : c1 t
    · cases h2 : c2 t
      · simp [h1, h2, ih]
      · simp [h1, h2, ih (s + 3)]
        ring
    · simp [h1, ih (s + 10)]
      ring

/-- helper: the additive formula is never negative. -/
theorem scoreRaw_nonneg (j : Job) (kw : String) (tags : List String) :
    0 ≤ scoreRaw j kw tags := by
  unfold scoreRaw
  refine add_nonneg (add_nonneg ?_ ?_) ?_
  · split <;> norm_num
  · positivity
  · refine List.sum_nonneg ?_
    intro x hx
    simp only [List.mem_map] at hx
    obtain ⟨tag, _, rfl⟩ := hx
    split_ifs <;> norm_num

/-- helper: _score equals the additive formula capped at 100. -/
theorem score_unfold (j : Job) (kw : String) (tags : List String) :
    score j kw tags = min (scoreRaw j kw tags) 100 := by
  simp only [score, scoreRaw]
  rw [foldl_add_five, foldl_tag_sum]
  simp only [zero_add]

/-- C7: the relevance score equals the specification's additive
formula, clamped into the closed interval from 0 to 100, and satisfies
those bounds; as a pure function it is deterministic for identical
inputs. -/
theorem score_matches_spec_formula :
    ∀ (j : Job) (kw : String) (tags : List String),
      score j kw tags = scoreSpec j kw tags ∧
      0 ≤ score j kw tags ∧ score j kw tags ≤ 100 := by
  intro j kw tags
  have h0 : 0 ≤ min (scoreRaw j kw tags) 100 :=
    le_min (scoreRaw_nonneg j kw tags) (by norm_num)
  refine ⟨?_, ?_, ?_⟩
  · rw [score_unfold]
    unfold scoreSpec
    rw [max_eq_right h0]
  · rw [score_unfold]
    exact h0
  · rw [score_unfold]
    exact min_le_right _ _

/-- C10: the score depends only on title, company and description; two
jobs agreeing on those three fields score identically whatever their
location, url, date_posted, source or stored score. -/
theorem score_ignores_nontext_fields :
    ∀ (j1 j2 : Job) (kw : String) (tags : List String),
      j1.title = j2.title → j1.company = j2.company →
      j1.description = j2.description →
      score j1 kw tags = score j2 kw tags := by
  intro j1 j2 kw tags h1 h2 h3
  simp only [score, h1, h2, h3]

/-- witness for score_ignores_nontext_fields at two concrete jobs that
differ in url, location, date, source and stored score. -/
theorem score_ignores_nontext_fields_check :
    score wJobA "Engineer" ["python"] = score wJobB "Engineer" ["python"] :=
  score_ignores_nontext_fields wJobA wJobB "Engineer" ["python"] rfl rfl rfl

/-- C8 counterexample: two keywords that differ only in case are not
collapsed; the computed keyword set keeps both entries. -/
theorem effective_keywords_case_cex :
    effective_keywords ["ml"] ["ML"] = ["ml", "ML"] ∧
    pyLower "ml".data = pyLower "ML".data ∧ "ml" ≠ "ML" := by decide

/-- C8 amended: the effective keyword set is the case-sensitive trimmed
union with duplicates collapsed: it is duplicate-free, and a string
belongs to it exactly when it is non-empty and is the stripped form of
some configured or persisted keyword. -/
theorem effective_keywords_trimmed_union :
    ∀ yamlKw dbKw : List String,
      (effective_keywords yamlKw dbKw).Nodup ∧
      ∀ s, s ∈ effective_keywords yamlKw dbKw ↔
        (s ≠ "" ∧ ∃ k, (k ∈ yamlKw ∨ k ∈ dbKw) ∧ pyStripStr k = s) := by
  intro y d
  refine ⟨List.nodup_dedup _, ?_⟩
  intro s
  unfold effective_keywords
  rw [List.mem_dedup, List.mem_map]
  constructor
  · rintro ⟨k, hk, rfl⟩
    rw [List.mem_filter] at hk
    obtain ⟨hk1, hk2⟩ := hk
    rw [List.mem_append] at hk1
    exact ⟨of_decide_eq_true hk2, k, hk1, rfl⟩
  · rintro ⟨hne, k, hk, rfl⟩
    refine ⟨k, ?_, rfl⟩
    rw [List.mem_filter]
    exact ⟨List.mem_append.mpr hk, decide_eq_true hne⟩

/-- witness for effective_keywords_trimmed_union: the stripped form of
a padded configured keyword belongs to the computed set. -/
theorem effective_keywords_trimmed_union_check :
    "ml" ∈ effective_keywords ["  ml "] ["x"] :=
  ((effective_keywords_trimmed_union ["  ml "] ["x"]).2 "ml").mpr
    ⟨by decide, "  ml ", Or.inl (by decide), by decide⟩

/-- helper: when the email channel reports failure the notification
phase returns the jobs table unchanged. -/
theorem notifyPhase_keeps_on_failure (p : RunParams) (js : List Row)
    (h : (notifyPhase p js).1 = false) : (notifyPhase p js).2.2.2 = js := by
  unfold notifyPhase at h ⊢
  cases he : (get_unnotified js).isEmpty with
  | true => simp [he]
  | false =>
    simp only [he, Bool.false_eq_true, if_false] at h ⊢
    simp [h]

/-- C5: when the primary dispatch channel reports failure the
orchestrator marks nothing notified: the final jobs table is exactly
the table produced by the scrape-and-save phase, so every listing
unnotified before dispatch is still unnotified after the run. -/
theorem dispatch_failure_marks_nothing (p : RunParams) (db0 : DbState)
    (hfail : (runOnce p db0).emailOk = false) :
    (runOnce p db0).db.jobs
      = (processCandidates p db0.jobs (candidates p db0) 0 0).1 ∧
    ∀ r ∈ get_unnotified ((processCandidates p db0.jobs (candidates p db0) 0 0).1),
      r ∈ get_unnotified ((runOnce p db0).db.jobs) := by
  have h1 : (runOnce p db0).db.jobs
      = (notifyPhase p (processCandidates p db0.jobs (candidates p db0) 0 0).1).2.2.2 := rfl
  have h2 : (runOnce p db0).emailOk
      = (notifyPhase p (processCandidates p db0.jobs (candidates p db0) 0 0).1).1 := rfl
  rw [h2] at hfail
  have h3 := notifyPhase_keeps_on_failure p _ hfail
  constructor
  · rw [h1, h3]
  · intro r hr
    rw [h1, h3]
    exact hr

/-- witness for dispatch_failure_marks_nothing at a concrete run whose
email dispatch fails for missing credentials. -/
theorem dispatch_failure_marks_nothing_check :
    (runOnce c5Params emptyDb).db.jobs
      = (processCandidates c5Params emptyDb.jobs (candidates c5Params emptyDb) 0 0).1 :=
  (dispatch_failure_marks_nothing c5Params emptyDb (by decide)).1

/-- C6 (code bug): in a dry run the telegram channel still performs an
external delivery, because run_once passes no dry-run flag to
TelegramNotifier.send; the email channel reports success without
delivering and the mark-notified step is skipped, but the claim that no
channel delivers externally is violated. -/
theorem telegram_delivers_in_dry_run :
    (runOnce c6Params emptyDb).telegramDelivered = true ∧
    (runOnce c6Params emptyDb).emailDelivered = false ∧
    (runOnce c6Params emptyDb).emailOk = true ∧
    get_unnotified ((runOnce c6Params emptyDb).db.jobs)
      = (runOnce c6Params emptyDb).db.jobs :=
  ⟨rfl, rfl, rfl, rfl⟩

/-- C9 counterexample: a run whose single save_job call fails still
returns a new-listing count of 1 although no row was persisted. -/
theorem run_count_overcounts_on_save_failure :
    (runOnce c9Params emptyDb).ret = 1 ∧
    (runOnce c9Params emptyDb).db.jobs = [] ∧
    total_jobs (runOnce c9Params emptyDb).db.jobs = 0 := by decide

/-- helper: with no save failures, every counted candidate corresponds
to exactly one appended row. -/
theorem processCandidates_nofail_length (p : RunParams)
    (hf : ∀ k, p.failAt k = false) :
    ∀ (cands : List Job) (jobs : List Row) (i c : Nat),
      ((processCandidates p jobs cands i c).1).length + c
        = jobs.length + (processCandidates p jobs cands i c).2 := by
  intro cands
  induction cands with
  | nil => intro jobs i c; simp [processCandidates]
  | cons j rest ih =>
    intro jobs i c
    by_cases hn : is_new jobs j.url j.title j.company
    · have habs : hasId jobs (mkRow j (p.nowAt i)).id = false := by
        show hasId jobs (jobId j) = false
        unfold is_new at hn
        simpa [jobId] using hn
      have hsave : (save_job jobs j (p.failAt i) (p.nowAt i)).1
          = jobs ++ [mkRow j (p.nowAt i)] := by
        rw [hf i]
        simp [save_job, insertOrIgnore, habs]
      simp only [processCandidates]
      rw [if_pos hn, hsave]
      have hrec := ih (jobs ++ [mkRow j (p.nowAt i)]) (i + 1) (c + 1)
      simp only [List.length_append, List.length_cons, List.length_nil] at hrec ⊢
      omega
    · simp only [processCandidates]
      rw [if_neg hn]
      exact ih jobs (i + 1) c

/-- helper: the notification phase never changes the number of rows. -/
theorem notifyPhase_length (p : RunParams) (js : List Row) :
    ((notifyPhase p js).2.2.2).length = js.length := by
  unfold notifyPhase
  cases he : (get_unnotified js).isEmpty with
  | true => simp [he]
  | false =>
    simp only [he, Bool.false_eq_true, if_false]
    split
    · simp [mark_notified]
    · rfl

/-- helper: every id in a run log is at most the running maximum. -/
theorem mem_le_foldr_max (l : List Nat) : ∀ x ∈ l, x ≤ l.foldr max 0 := by
  induction l with
  | nil => intro x hx; simp at hx
  | cons a l ih =>
    intro x hx
    rcases List.mem_cons.mp hx with h | h
    · subst h; exact le_max_left _ _
    · exact le_trans (ih x h) (le_max_right _ _)

/-- helper: closing a freshly opened run record updates exactly that
record. -/
theorem finish_run_fresh (log : List RunRow) (startNow finishNow : String)
    (n : Nat) (status : String) :
    finish_run
      (log ++ [{ id := next_run_id log, started_at := startNow,
                 finished_at := none, new_jobs := 0, status := "running" }])
      (next_run_id log) n status finishNow
      = log ++ [{ id := next_run_id log, started_at := startNow,
                  finished_at := some finishNow, new_jobs := n,
                  status := status }] := by
  unfold finish_run
  rw [List.map_append]
  congr 1
  · have hall : ∀ r ∈ log,
        (if r.id = next_run_id log then
          { r with finished_at := some finishNow, new_jobs := n,
                   status := status } else r) = r := by
      intro r hr
      rw [if_neg]
      intro hEq
      have hle : r.id ≤ (log.map RunRow.id).foldr max 0 :=
        mem_le_foldr_max _ _ (List.mem_map_of_mem _ hr)
      rw [next_run_id] at hEq
      omega
    rw [List.map_congr_left hall]
    exact List.map_id' log
  · simp

/-- C9 amended: the count returned by a run (and written to its run
record) equals the number of candidates that passed the is_new check;
when no save fails this is exactly the number of rows genuinely added
to the store, and the run record is closed with that count and status
ok.  (With a failing save the count can exceed the rows written, as
run_count_overcounts_on_save_failure shows.) -/
theorem run_count_exact_without_failures (p : RunParams) (db0 : DbState)
    (hf : ∀ k, p.failAt k = false) :
    total_jobs ((runOnce p db0).db.jobs)
      = total_jobs db0.jobs + (runOnce p db0).ret ∧
    (runOnce p db0).db.runLog
      = db0.runLog ++
        [{ id := next_run_id db0.runLog,
           started_at := p.startNow,
           finished_at := some p.finishNow,
           new_jobs := (runOnce p db0).ret,
           status := "ok" }] := by
  constructor
  · show ((notifyPhase p (processCandidates p db0.jobs (candidates p db0) 0 0).1).2.2.2).length
      = db0.jobs.length + (processCandidates p db0.jobs (candidates p db0) 0 0).2
    rw [notifyPhase_length]
    have hrec := processCandidates_nofail_length p hf (candidates p db0) db0.jobs 0 0
    omega
  · exact finish_run_fresh db0.runLog p.startNow p.finishNow
      (processCandidates p db0.jobs (candidates p db0) 0 0).2 "ok"

/-- witness for run_count_exact_without_failures at a concrete run with
no save failures: the returned count matches the rows added. -/
theorem run_count_exact_without_failures_check :
    total_jobs ((runOnce c9okParams emptyDb).db.jobs)
      = total_jobs emptyDb.jobs + (runOnce c9okParams emptyDb).ret :=
  (run_count_exact_without_failures c9okParams emptyDb (fun _ => rfl)).1

end JobSearch
